import Mathlib

/-!
Shallow embedding of the business logic of the `ecommerce-backend`
repository (Express + Mongoose CRUD backend), together with theorems
settling the specification claims about it.

Each definition mirrors one function of the JavaScript source:
* product stock reservation / release    (src/controllers/orderController.js)
* coupon eligibility and end-date logic  (src/models/Coupon.js, src/controllers/couponController.js)
* banner status auto-transition          (Banner model, `bannerSchema.pre('save')`)
* category tree builder and deletion     (src/controllers/categoryController.js)
* signup role sanitising and validation  (auth controller, `signup`)

Dates/instants are modelled as natural numbers (milliseconds since epoch)
where only comparison matters, and as civil `(year, month, day)` triples
where the JavaScript code does calendar arithmetic (`Date.setDate`).
-/

/-! ### Products and the order controller's stock reconciliation -/

/-- A product document, restricted to the fields the order controller touches:
`stock` (a non-negative integer) and the `inStock` flag. -/
structure Product where
  stock : Nat
  inStock : Bool
  deriving Repr, DecidableEq

/-- The product collection, keyed by product id (`Product.findById`). -/
abbrev ProductDb := List (Nat × Product)

/-- Model of `Product.findById`: first entry with the given key, if any. -/
def findProduct (db : ProductDb) (pid : Nat) : Option Product :=
  match db with
  | [] => none
  | (k, p) :: rest => if k = pid then some p else findProduct rest pid

/-- Model of `productDoc.save()`: writes the document back, replacing the first
entry with the same id and leaving the rest of the collection alone. -/
def saveProduct (db : ProductDb) (pid : Nat) (p : Product) : ProductDb :=
  match db with
  | [] => []
  | (k, q) :: rest => if k = pid then (k, p) :: rest else (k, q) :: saveProduct rest pid p

/-- Outcome of the stock step of `createOrder`: HTTP 404 (`Product not
found`), HTTP 400 (`Insufficient stock`), or fall-through to order creation. -/
inductive CreateOrderOutcome where
  | notFoundError
  | insufficientStockError
  | created
  deriving Repr, DecidableEq

/-- The stock-checking prefix of `createOrder` (orderController.js lines
56-80): when a product reference is supplied, look the product up, fail
with 404 when missing, fail with 400 when `stock < quantity`, otherwise
decrement `stock` by `quantity` and set `inStock = false` exactly when the
resulting stock is `0` (otherwise `inStock` is left as it was), then save. -/
def createOrderStock (db : ProductDb) (product : Option Nat) (qty : Nat) :
    CreateOrderOutcome × ProductDb :=
  match product with
  | none => (CreateOrderOutcome.created, db)
  | some pid =>
    match findProduct db pid with
    | none => (CreateOrderOutcome.notFoundError, db)
    | some p =>
      if p.stock < qty then (CreateOrderOutcome.insufficientStockError, db)
      else
        let s := p.stock - qty
        let p' : Product := { stock := s, inStock := if s = 0 then false else p.inStock }
        (CreateOrderOutcome.created, saveProduct db pid p')

/-- An order document, restricted to the fields the stock-release code
reads: the optional product reference, the quantity, and the status. -/
structure OrderRec where
  product : Option Nat
  quantity : Nat
  status : String
  deriving Repr, DecidableEq

/-- The shared stock-restoring body of `updateOrder`/`deleteOrder`:
`productDoc.stock += order.quantity; productDoc.inStock = true; save()`,
a no-op when the referenced product is not found. -/
def releaseStock (db : ProductDb) (pid : Nat) (qty : Nat) : ProductDb :=
  match findProduct db pid with
  | some p => saveProduct db pid { stock := p.stock + qty, inStock := true }
  | none => db

/-- The stock effect of `updateOrder` (orderController.js lines 192-215):
restore stock only when the request sets `status` to `cancelled`, the old
order's status was not already `cancelled`, and the order references a
product. -/
def updateOrderStock (db : ProductDb) (o : OrderRec) (newStatus : Option String) : ProductDb :=
  if newStatus = some "cancelled" ∧ o.status ≠ "cancelled" then
    match o.product with
    | some pid => releaseStock db pid o.quantity
    | none => db
  else db

/-- The stock effect of `deleteOrder` (orderController.js lines 245-253):
restore stock only when the order's status is neither `cancelled` nor
`completed` and it references a product. -/
def deleteOrderStock (db : ProductDb) (o : OrderRec) : ProductDb :=
  if o.status ≠ "cancelled" ∧ o.status ≠ "completed" then
    match o.product with
    | some pid => releaseStock db pid o.quantity
    | none => db
  else db

theorem findProduct_saveProduct_self (db : ProductDb) (pid : Nat) (p p' : Product)
    (h : findProduct db pid = some p) :
    findProduct (saveProduct db pid p') pid = some p' := by
  induction db with
  | nil => simp [findProduct] at h
  | cons hd tl ih =>
    obtain ⟨k, q⟩ := hd
    by_cases hk : k = pid
    · simp [findProduct, saveProduct, hk]
    · simp [findProduct, saveProduct, hk] at h ⊢
      exact ih h

/-- C1: on order creation with a product reference, a missing product fails
with the not-found error; insufficient stock fails with the
insufficient-stock error leaving the collection unchanged; otherwise stock
is decremented by exactly the ordered quantity and `inStock` is assigned
`false` precisely when the resulting stock is `0` (and left unchanged
otherwise). In particular, from stock 5, two sequential orders of
quantity 3 leave stock 2 after the first and fail the second with stock
still 2. -/
theorem createOrder_stock_spec (db : ProductDb) (pid qty : Nat) :
    ((findProduct db pid = none →
      createOrderStock db (some pid) qty = (CreateOrderOutcome.notFoundError, db)) ∧
    (∀ p : Product, findProduct db pid = some p → p.stock < qty →
      createOrderStock db (some pid) qty = (CreateOrderOutcome.insufficientStockError, db)) ∧
    (∀ p : Product, findProduct db pid = some p → qty ≤ p.stock →
      (createOrderStock db (some pid) qty).1 = CreateOrderOutcome.created ∧
      findProduct (createOrderStock db (some pid) qty).2 pid =
        some { stock := p.stock - qty,
               inStock := if p.stock - qty = 0 then false else p.inStock })) ∧
    ((createOrderStock [(1, ⟨5, true⟩)] (some 1) 3).1 = CreateOrderOutcome.created ∧
     findProduct (createOrderStock [(1, ⟨5, true⟩)] (some 1) 3).2 1 = some ⟨2, true⟩ ∧
     createOrderStock (createOrderStock [(1, ⟨5, true⟩)] (some 1) 3).2 (some 1) 3 =
       (CreateOrderOutcome.insufficientStockError,
        (createOrderStock [(1, ⟨5, true⟩)] (some 1) 3).2)) := by
  refine ⟨⟨?_, ?_, ?_⟩, by decide⟩
  · intro h
    simp [createOrderStock, h]
  · intro p hp hlt
    simp [createOrderStock, hp, hlt]
  · intro p hp hle
    have hnlt : ¬ p.stock < qty := not_lt.mpr hle
    constructor
    · simp [createOrderStock, hp, hnlt]
    · simp only [createOrderStock, hp, hnlt, if_false]
      exact findProduct_saveProduct_self db pid p _ hp

/-- Witness for C1 at a concrete input: stock 2, order of quantity 3 is
rejected with the insufficient-stock error and the collection unchanged. -/
theorem createOrder_stock_spec_witness :
    createOrderStock [(1, (⟨2, true⟩ : Product))] (some 1) 3 =
      (CreateOrderOutcome.insufficientStockError, [(1, (⟨2, true⟩ : Product))]) :=
  (createOrder_stock_spec [(1, ⟨2, true⟩)] 1 3).1.2.1 ⟨2, true⟩ (by decide) (by decide)

/-- C2: updating an order's status to `cancelled` when it was not already
cancelled, and deleting an order whose status is neither `cancelled` nor
`completed`, each add the order's quantity back to the referenced
product's stock and set `inStock` to `true` unconditionally; updating to
`cancelled` from `cancelled`, and deleting a cancelled or completed order,
leave the product collection unchanged. In particular, cancelling an order
of quantity 4 against a product with stock 1 leaves stock 5 and `inStock`
true. -/
theorem order_release_stock_spec :
    (∀ (db : ProductDb) (o : OrderRec) (pid : Nat) (p : Product),
      o.product = some pid → findProduct db pid = some p →
      ((o.status ≠ "cancelled" →
         findProduct (updateOrderStock db o (some "cancelled")) pid =
           some ⟨p.stock + o.quantity, true⟩) ∧
       (o.status = "cancelled" → updateOrderStock db o (some "cancelled") = db) ∧
       (o.status ≠ "cancelled" → o.status ≠ "completed" →
         findProduct (deleteOrderStock db o) pid = some ⟨p.stock + o.quantity, true⟩) ∧
       (o.status = "cancelled" ∨ o.status = "completed" → deleteOrderStock db o = db))) ∧
    findProduct
      (updateOrderStock [(7, ⟨1, false⟩)] ⟨some 7, 4, "pending"⟩ (some "cancelled")) 7 =
      some ⟨5, true⟩ := by
  refine ⟨?_, by decide⟩
  intro db o pid p hprod hfind
  refine ⟨?_, ?_, ?_, ?_⟩
  · intro hne
    simp only [updateOrderStock, hne, ne_eq, not_false_iff, and_true, if_pos rfl, hprod,
      releaseStock, hfind]
    · exact findProduct_saveProduct_self db pid p _ hfind
  · intro heq
    simp [updateOrderStock, heq]
  · intro hne1 hne2
    simp only [deleteOrderStock, hne1, hne2, ne_eq, not_false_iff, and_self, if_true, hprod,
      releaseStock, hfind]
    exact findProduct_saveProduct_self db pid p _ hfind
  · intro hor
    rcases hor with h | h <;> simp [deleteOrderStock, h]

/-- Witness for C2 at a concrete input: cancelling an order of quantity 4
against a product with stock 1 leaves stock 5 and `inStock = true`. -/
theorem order_release_stock_spec_witness :
    findProduct
      (updateOrderStock [(7, (⟨1, false⟩ : Product))] ⟨some 7, 4, "pending"⟩ (some "cancelled")) 7 =
      some ⟨5, true⟩ :=
  (order_release_stock_spec.1 [(7, ⟨1, false⟩)] ⟨some 7, 4, "pending"⟩ 7 ⟨1, false⟩
    rfl (by decide)).1 (by decide)

/-! ### Coupons: eligibility (`couponSchema.methods.isValid`) and
`getCouponByCode` -/

/-- A coupon document, restricted to the fields the eligibility logic
reads. `startDate`/`endDate` are instants (milliseconds since epoch,
compared exactly as `Date` objects compare); `usageLimit` is `none` when
the field is absent (`null`/`undefined` in the document). -/
structure Coupon where
  startDate : Nat
  endDate : Nat
  status : String
  usageLimit : Option Nat
  usedCount : Nat
  deriving Repr, DecidableEq

/-- JavaScript truthiness of the optional numeric `usageLimit` field:
`null`/`undefined` and `0` are falsy, every other number is truthy. -/
def optTruthy : Option Nat → Bool
  | none => false
  | some 0 => false
  | some (_ + 1) => true

/-- Model of `couponSchema.methods.isValid` (Coupon.js lines 67-88): reject when
`now < startDate || now > endDate`, reject when `status !== 'active'`,
reject when `usageLimit && usedCount >= usageLimit`, else accept. -/
def couponIsValid (c : Coupon) (now : Nat) : Bool :=
  if now < c.startDate ∨ c.endDate < now then false
  else if c.status ≠ "active" then false
  else if optTruthy c.usageLimit ∧ c.usageLimit.getD 0 ≤ c.usedCount then false
  else true

/-- The eligibility predicate exactly as the specification words it: in
the date window (inclusive), active, and usage limit absent or
`usedCount < usageLimit`. Used only to compare against `couponIsValid`. -/
def couponEligibleClaimed (c : Coupon) (now : Nat) : Bool :=
  decide (c.startDate ≤ now) && decide (now ≤ c.endDate) && (c.status == "active") &&
    (match c.usageLimit with
     | none => true
     | some l => decide (c.usedCount < l))

/-- The result of the validity gauntlet of `getCouponByCode`
(couponController.js lines 124-180). The code also lazily persists
`status = 'expired'` on the expired branch; only the returned outcome is
modelled here. -/
inductive CouponCodeResult where
  | notFound
  | notYetActive
  | expired
  | notActive
  | usageLimitReached
  | ok
  deriving Repr, DecidableEq

/-- Model of `getCouponByCode` on the result of the code lookup: not-yet-active when
`now < startDate`, expired when `now > endDate`, not-active when
`status !== 'active'`, usage-limit-reached when
`usageLimit && usedCount >= usageLimit`, else success. -/
def getCouponByCode (c : Option Coupon) (now : Nat) : CouponCodeResult :=
  match c with
  | none => CouponCodeResult.notFound
  | some c =>
    if now < c.startDate then CouponCodeResult.notYetActive
    else if c.endDate < now then CouponCodeResult.expired
    else if c.status ≠ "active" then CouponCodeResult.notActive
    else if optTruthy c.usageLimit ∧ c.usageLimit.getD 0 ≤ c.usedCount then
      CouponCodeResult.usageLimitReached
    else CouponCodeResult.ok

/-- C3 counterexample: a coupon whose `usageLimit` is present and equal to
`usedCount` (both `0`) is accepted by `couponSchema.methods.isValid`,
because `0` is falsy and the usage check is skipped — the claim as stated
says any coupon with `usedCount = usageLimit` must be rejected. -/
theorem couponIsValid_claim_counterexample :
    couponIsValid ⟨0, 10, "active", some 0, 0⟩ 5 = true ∧
    couponEligibleClaimed ⟨0, 10, "active", some 0, 0⟩ 5 = false := by
  constructor <;> rfl

/-- C3 (amended): `isValid` accepts exactly when `now` lies in the
inclusive `[startDate, endDate]` window, the status is `active`, and the
usage limit is absent, **zero** (falsy, hence treated as unlimited), or
strictly greater than `usedCount`. With a positive usage limit the
boundaries behave as claimed: `usedCount = usageLimit` is rejected and
`usedCount = usageLimit - 1` is accepted, all other conditions holding. -/
theorem couponIsValid_spec (c : Coupon) (now : Nat) :
    (couponIsValid c now = true ↔
      (c.startDate ≤ now ∧ now ≤ c.endDate ∧ c.status = "active" ∧
        (c.usageLimit = none ∨ c.usageLimit = some 0 ∨
          ∃ l, c.usageLimit = some l ∧ c.usedCount < l))) ∧
    (∀ l : Nat, 1 ≤ l → c.usageLimit = some l →
      c.startDate ≤ now → now ≤ c.endDate → c.status = "active" →
      couponIsValid { c with usedCount := l } now = false ∧
      couponIsValid { c with usedCount := l - 1 } now = true) := by
  constructor
  · unfold couponIsValid
    split_ifs with h1 h2 h3
    · simp only [Bool.false_eq_true, false_iff]
      rintro ⟨hs, he, -⟩
      rcases h1 with h | h <;> omega
    · simp only [Bool.false_eq_true, false_iff]
      rintro ⟨-, -, hst, -⟩
      exact h2 hst
    · simp only [Bool.false_eq_true, false_iff]
      rintro ⟨-, -, -, hu⟩
      obtain ⟨ht, hle⟩ := h3
      rcases hu with h | h | ⟨l, hl, hlt⟩
      · rw [h] at ht; simp [optTruthy] at ht
      · rw [h] at ht; simp [optTruthy] at ht
      · rw [hl] at hle; simp [Option.getD] at hle; omega
    · simp only [true_iff]
      push_neg at h1 h2
      refine ⟨by omega, by omega, h2, ?_⟩
      rcases hul : c.usageLimit with _ | l
      · exact Or.inl rfl
      · rcases l with _ | n
        · exact Or.inr (Or.inl rfl)
        · refine Or.inr (Or.inr ⟨n + 1, rfl, ?_⟩)
          rw [hul] at h3
          simp only [optTruthy, Option.getD, true_and, not_le] at h3
          exact h3
  · intro l hl hul hs he hst
    obtain ⟨n, rfl⟩ : ∃ n, l = n + 1 := ⟨l - 1, by omega⟩
    constructor
    · unfold couponIsValid
      rw [if_neg (by simp only [not_or, not_lt]; omega)]
      rw [if_neg (by simpa using hst)]
      rw [if_pos (by simp [hul, optTruthy])]
    · unfold couponIsValid
      rw [if_neg (by simp only [not_or, not_lt]; omega)]
      rw [if_neg (by simpa using hst)]
      rw [if_neg (by simp [hul, optTruthy])]

/-- Witness for C3 at a concrete coupon: usage limit `3`, all other
conditions holding — rejected at `usedCount = 3`, accepted at
`usedCount = 2`. -/
theorem couponIsValid_spec_witness :
    couponIsValid ⟨0, 10, "active", some 3, 3⟩ 5 = false ∧
    couponIsValid ⟨0, 10, "active", some 3, 2⟩ 5 = true :=
  (couponIsValid_spec ⟨0, 10, "active", some 3, 7⟩ 5).2 3
    (by decide) rfl (by decide) (by decide) rfl

/-- C8: a present-but-zero `usageLimit` is falsy in the guard
`usageLimit && usedCount >= usageLimit`, so both the eligibility method
and the lookup-by-code validity gauntlet treat it exactly like an absent
limit, and such a coupon stays eligible for every `usedCount`, all other
conditions holding. -/
theorem coupon_zero_usageLimit_spec (c : Coupon) (now : Nat)
    (h : c.usageLimit = some 0) :
    couponIsValid c now = couponIsValid { c with usageLimit := none } now ∧
    getCouponByCode (some c) now =
      getCouponByCode (some { c with usageLimit := none }) now ∧
    (c.startDate ≤ now → now ≤ c.endDate → c.status = "active" →
      couponIsValid c now = true ∧ getCouponByCode (some c) now = CouponCodeResult.ok) := by
  refine ⟨?_, ?_, ?_⟩
  · unfold couponIsValid
    simp [h, optTruthy]
  · unfold getCouponByCode
    simp [h, optTruthy]
  · intro hs he hst
    constructor
    · unfold couponIsValid
      rw [if_neg (by simp only [not_or, not_lt]; omega)]
      rw [if_neg (by simpa using hst)]
      rw [if_neg (by simp [h, optTruthy])]
    · show (if now < c.startDate then CouponCodeResult.notYetActive
        else if c.endDate < now then CouponCodeResult.expired
        else if c.status ≠ "active" then CouponCodeResult.notActive
        else if optTruthy c.usageLimit ∧ c.usageLimit.getD 0 ≤ c.usedCount then
          CouponCodeResult.usageLimitReached
        else CouponCodeResult.ok) = CouponCodeResult.ok
      rw [if_neg (by omega)]
      rw [if_neg (by omega)]
      rw [if_neg (by simpa using hst)]
      rw [if_neg (by simp [h, optTruthy])]

/-- Witness for C8 at a concrete coupon: `usageLimit = 0`, `usedCount = 1000`,
inside the window and active — still eligible and still accepted by the
code lookup. -/
theorem coupon_zero_usageLimit_spec_witness :
    couponIsValid ⟨0, 10, "active", some 0, 1000⟩ 5 = true ∧
    getCouponByCode (some ⟨0, 10, "active", some 0, 1000⟩) 5 = CouponCodeResult.ok :=
  (coupon_zero_usageLimit_spec ⟨0, 10, "active", some 0, 1000⟩ 5 rfl).2.2
    (by decide) (by decide) rfl

/-! ### Calendar arithmetic: `end.setDate(end.getDate() + validityDays)` -/

/-- A civil `(year, month, day)` date — the calendar fields of a
JavaScript `Date` (months here 1-12, as in `setDate`/`getDate` day
arithmetic). -/
structure CivilDate where
  year : Nat
  month : Nat
  day : Nat
  deriving Repr, DecidableEq

/-- Gregorian leap-year rule (as the platform's calendar uses). -/
def isLeapYear (y : Nat) : Bool :=
  (y % 4 == 0 && y % 100 != 0) || y % 400 == 0

/-- Length of month `m` of year `y`; out-of-range months get the default
arm (never reached from valid dates). -/
def daysInMonth (y m : Nat) : Nat :=
  match m with
  | 2 => if isLeapYear y then 29 else 28
  | 4 => 30
  | 6 => 30
  | 9 => 30
  | 11 => 30
  | _ => 31

theorem daysInMonth_pos (y m : Nat) : 0 < daysInMonth y m := by
  unfold daysInMonth
  split
  · split <;> omega
  all_goals omega

/-- The rollover normalisation `Date` performs after `setDate` writes an
oversized day-of-month: repeatedly move to the next month. Fuel-indexed so
the recursion is structural; `d` units of fuel always suffice because the
day count drops by at least one whole month per step. -/
def normalizeGo : Nat → Nat → Nat → Nat → CivilDate
  | 0, y, m, d => ⟨y, m, d⟩
  | fuel + 1, y, m, d =>
    if daysInMonth y m < d then
      if m = 12 then normalizeGo fuel (y + 1) 1 (d - 31)
      else normalizeGo fuel y (m + 1) (d - daysInMonth y m)
    else ⟨y, m, d⟩

/-- Normalise an (possibly oversized) day-of-month into a proper civil date. -/
def normalizeDate (y m d : Nat) : CivilDate :=
  normalizeGo d y m d

/-- JavaScript `date.setDate(date.getDate() + n)`: write `day + n` into
the day field and let the `Date` normalise the overflow through
month/year rollover. -/
def jsAddDays (d : CivilDate) (n : Nat) : CivilDate :=
  normalizeDate d.year d.month (d.day + n)

/-- Day count of the months of year `y` strictly before month `m`
(months 1-indexed; `daysBeforeMonth y 13` is the length of year `y`). -/
def daysBeforeMonth (y : Nat) : Nat → Nat
  | 0 => 0
  | 1 => 0
  | m + 1 => daysBeforeMonth y m + daysInMonth y m

/-- Day count of all years strictly before year `y`. -/
def daysBeforeYear : Nat → Nat
  | 0 => 0
  | y + 1 => daysBeforeYear y + daysBeforeMonth y 13

/-- Absolute day index of a civil date: strictly increasing by exactly one
per calendar day. -/
def dayNumber (d : CivilDate) : Nat :=
  daysBeforeYear d.year + daysBeforeMonth d.year d.month + d.day

theorem daysBeforeMonth_succ (y m : Nat) (hm : 1 ≤ m) :
    daysBeforeMonth y (m + 1) = daysBeforeMonth y m + daysInMonth y m := by
  cases m with
  | zero => omega
  | succ n => rfl

theorem dayNumber_normalizeGo (fuel : Nat) :
    ∀ y m d : Nat, 1 ≤ m → d ≤ fuel →
      dayNumber (normalizeGo fuel y m d) =
        daysBeforeYear y + daysBeforeMonth y m + d := by
  induction fuel with
  | zero =>
    intro y m d _ hd
    interval_cases d
    rfl
  | succ fuel ih =>
    intro y m d hm hd
    show dayNumber
        (if daysInMonth y m < d then
          if m = 12 then normalizeGo fuel (y + 1) 1 (d - 31)
          else normalizeGo fuel y (m + 1) (d - daysInMonth y m)
        else ⟨y, m, d⟩) = daysBeforeYear y + daysBeforeMonth y m + d
    by_cases h : daysInMonth y m < d
    · rw [if_pos h]
      by_cases h12 : m = 12
      · subst h12
        have h31 : daysInMonth y 12 = 31 := rfl
        rw [if_pos rfl]
        rw [ih (y + 1) 1 (d - 31) le_rfl (by omega)]
        have hy : daysBeforeYear (y + 1) = daysBeforeYear y + daysBeforeMonth y 13 := rfl
        have h13 : daysBeforeMonth y 13 = daysBeforeMonth y 12 + daysInMonth y 12 :=
          daysBeforeMonth_succ y 12 (by omega)
        have h1 : daysBeforeMonth (y + 1) 1 = 0 := rfl
        rw [hy, h13, h31, h1]
        omega
      · rw [if_neg h12]
        have hpos := daysInMonth_pos y m
        rw [ih y (m + 1) (d - daysInMonth y m) (by omega) (by omega)]
        rw [daysBeforeMonth_succ y m hm]
        omega
    · rw [if_neg h]
      rfl

/-- Normalisation preserves the absolute day index: `setDate` overflow
rollover moves across month and year boundaries without gaining or losing
a day. -/
theorem dayNumber_normalizeDate (y m d : Nat) (hm : 1 ≤ m) :
    dayNumber (normalizeDate y m d) = daysBeforeYear y + daysBeforeMonth y m + d :=
  dayNumber_normalizeGo d y m d hm le_rfl

/-- A coupon document as the save hook sees it: the calendar view of
`startDate`, the validity duration, and the stored (derived) `endDate`. -/
structure CouponDoc where
  startDate : CivilDate
  validityDays : Nat
  endDate : CivilDate
  deriving Repr, DecidableEq

/-- The end-date computation shared by `couponSchema.pre('save')`
(Coupon.js lines 57-64) and `createCoupon` (couponController.js lines
41-54): `end = new Date(start); end.setDate(end.getDate() + days)`. -/
def couponComputeEnd (start : CivilDate) (validityDays : Nat) : CivilDate :=
  jsAddDays start validityDays

/-- Model of `couponSchema.pre('save')`: recompute `endDate` when both `startDate`
and `validityDays` are truthy (a `Date` object is always truthy;
`validityDays` is falsy exactly when it is `0`). -/
def couponPreSave (c : CouponDoc) : CouponDoc :=
  if c.validityDays ≠ 0 then
    { c with endDate := couponComputeEnd c.startDate c.validityDays }
  else c

/-- C4: after every save supplying a start date and a positive validity
duration, the stored `endDate` lies exactly `validityDays` calendar days
after `startDate` (measured in absolute day index), with month and year
rollover handled by `setDate` normalisation; in particular Jan 31 plus one
day is Feb 1. -/
theorem coupon_endDate_spec :
    (∀ c : CouponDoc, 1 ≤ c.startDate.month → 1 ≤ c.validityDays →
      dayNumber (couponPreSave c).endDate = dayNumber c.startDate + c.validityDays) ∧
    couponComputeEnd ⟨2025, 1, 31⟩ 1 = ⟨2025, 2, 1⟩ := by
  constructor
  · intro c hm hv
    unfold couponPreSave
    rw [if_pos (by omega)]
    show dayNumber (couponComputeEnd c.startDate c.validityDays) =
      dayNumber c.startDate + c.validityDays
    unfold couponComputeEnd jsAddDays
    rw [dayNumber_normalizeDate c.startDate.year c.startDate.month
      (c.startDate.day + c.validityDays) hm]
    unfold dayNumber
    omega
  · decide

/-- Witness for C4 at a concrete document: start Jan 31 of year 1, one
validity day — the saved end date is one absolute day later (Feb 1). -/
theorem coupon_endDate_spec_witness :
    dayNumber (couponPreSave ⟨⟨1, 1, 31⟩, 1, ⟨0, 1, 0⟩⟩).endDate =
      dayNumber (⟨1, 1, 31⟩ : CivilDate) + 1 :=
  coupon_endDate_spec.1 ⟨⟨1, 1, 31⟩, 1, ⟨0, 1, 0⟩⟩ (by decide) (by decide)

/-! ### Banners: `bannerSchema.pre('save')` status auto-transition -/

/-- A banner document, restricted to the fields the save hook reads:
start/end instants and the status string. -/
structure Banner where
  startDate : Nat
  endDate : Nat
  status : String
  deriving Repr, DecidableEq

/-- Model of `bannerSchema.pre('save')` (Banner model, lines 267-278): first flip
`pending → active` when `startDate <= now && endDate >= now`, then flip
`active → expired` when `endDate < now` — the second test reads the status
as left by the first. -/
def bannerPreSave (b : Banner) (now : Nat) : Banner :=
  let b1 :=
    if b.startDate ≤ now ∧ now ≤ b.endDate ∧ b.status = "pending" then
      { b with status := "active" }
    else b
  if b1.endDate < now ∧ b1.status = "active" then
    { b1 with status := "expired" }
  else b1

/-- C6 counterexample: a `pending` banner already past its end date is
*not* transitioned by the save hook — the pending→active branch requires
`endDate >= now`, and the expired branch only fires from `active` — even
though `now ≥ startDate`, contradicting the claim that a pending banner
becomes active once `now ≥ startDate`. -/
theorem bannerPreSave_claim_counterexample :
    (⟨0, 1, "pending"⟩ : Banner).startDate ≤ 5 ∧
    bannerPreSave ⟨0, 1, "pending"⟩ 5 = ⟨0, 1, "pending"⟩ := by
  constructor <;> decide

/-- C6 (amended): on every save, a `pending` banner becomes `active`
exactly when `startDate ≤ now ≤ endDate` (a pending banner outside the
window — in particular one already past `endDate` — stays pending); an
`active` banner becomes `expired` exactly when `now > endDate`; a banner
whose status is `inactive` (or anything other than `pending`/`active`) is
never auto-transitioned. -/
theorem bannerPreSave_spec (b : Banner) (now : Nat) :
    (b.status = "pending" →
      bannerPreSave b now =
        if b.startDate ≤ now ∧ now ≤ b.endDate then { b with status := "active" }
        else b) ∧
    (b.status = "active" →
      bannerPreSave b now =
        if b.endDate < now then { b with status := "expired" } else b) ∧
    (b.status ≠ "pending" → b.status ≠ "active" → bannerPreSave b now = b) := by
  obtain ⟨s, e, st⟩ := b
  refine ⟨?_, ?_, ?_⟩
  · intro h
    simp only at h
    subst h
    by_cases hw : s ≤ now ∧ now ≤ e
    · have hne : ¬ e < now := by omega
      simp [bannerPreSave, hw, hw.1, hw.2, hne]
    · simp [bannerPreSave, hw]
  · intro h
    simp only at h
    subst h
    by_cases he : e < now
    · simp [bannerPreSave, he]
    · simp [bannerPreSave, he]
  · intro h1 h2
    simp only at h1 h2
    simp [bannerPreSave, h1, h2]

/-- Witness for C6 at concrete banners: a pending banner inside its window
becomes active; an active banner past its end becomes expired. -/
theorem bannerPreSave_spec_witness :
    bannerPreSave ⟨0, 10, "pending"⟩ 5 = ⟨0, 10, "active"⟩ ∧
    bannerPreSave ⟨0, 10, "active"⟩ 11 = ⟨0, 10, "expired"⟩ :=
  ⟨((bannerPreSave_spec ⟨0, 10, "pending"⟩ 5).1 rfl).trans (by decide),
   ((bannerPreSave_spec ⟨0, 10, "active"⟩ 11).2.1 rfl).trans (by decide)⟩

/-! ### Category tree builder (`buildCategoryTree`) -/

/-- A category row as the tree builder sees it: its id and the optional
parent reference (possibly dangling). -/
structure CatNode where
  id : Nat
  parent : Option Nat
  deriving Repr, DecidableEq

/-- The `categoryMap` of `buildCategoryTree`, tracking each node's
accumulated `children` id sequence. -/
abbrev ChildMap := List (Nat × List Nat)

/-- Model of `Map.set`: overwrite the first entry with this key, or append a new
entry. -/
def mapSet (m : ChildMap) (k : Nat) (v : List Nat) : ChildMap :=
  match m with
  | [] => [(k, v)]
  | (k', v') :: rest => if k' = k then (k, v) :: rest else (k', v') :: mapSet rest k v

/-- Model of `Map.get`: first entry with this key, if any. -/
def mapGet (m : ChildMap) (k : Nat) : Option (List Nat) :=
  match m with
  | [] => none
  | (k', v') :: rest => if k' = k then some v' else mapGet rest k

/-- Model of `parentObj.children.push(categoryObj)`: append `x` to the children
sequence of entry `k` (no-op when the entry is absent). -/
def appendChild (m : ChildMap) (k x : Nat) : ChildMap :=
  match m with
  | [] => []
  | (k', v') :: rest =>
    if k' = k then (k', v' ++ [x]) :: rest else (k', v') :: appendChild rest k x

/-- First pass of `buildCategoryTree` (categoryController.js lines
139-141): `categoryMap.set(cat._id, { ...cat, children: [] })` for each
category in input order. -/
def initChildMap (cats : List CatNode) : ChildMap :=
  cats.foldl (fun m c => mapSet m c.id []) []

/-- Second pass of `buildCategoryTree` (categoryController.js lines
144-157), in input order: a node with a parent present in the map is
pushed onto that parent's children; a node with an absent parent, or a
parent id not in the map, is pushed onto the root sequence. -/
def treePass2 : ChildMap → List Nat → List CatNode → ChildMap × List Nat
  | m, roots, [] => (m, roots)
  | m, roots, c :: rest =>
    match c.parent with
    | none => treePass2 m (roots ++ [c.id]) rest
    | some q =>
      match mapGet m q with
      | some _ => treePass2 (appendChild m q c.id) roots rest
      | none => treePass2 m (roots ++ [c.id]) rest

/-- Model of `buildCategoryTree`: the children map and root sequence produced by
the two passes. -/
def buildCategoryTree (cats : List CatNode) : ChildMap × List Nat :=
  treePass2 (initChildMap cats) [] cats

/-- Whether some category in the supplied list has this id. -/
def hasId (cats : List CatNode) (q : Nat) : Bool :=
  cats.any (fun c => c.id == q)

/-- A node lands in the root sequence: parent absent, or parent id not
occurring in the supplied list. -/
def isRootIn (cats : List CatNode) (c : CatNode) : Bool :=
  match c.parent with
  | none => true
  | some q => !hasId cats q

theorem mapGet_mapSet (m : ChildMap) (k p : Nat) (v : List Nat) :
    mapGet (mapSet m k v) p = if k = p then some v else mapGet m p := by
  induction m with
  | nil => by_cases h : k = p <;> simp [mapSet, mapGet, h]
  | cons hd tl ih =>
    obtain ⟨k', v'⟩ := hd
    by_cases h1 : k' = k
    · subst h1
      by_cases h2 : k' = p <;> simp [mapSet, mapGet, h2]
    · by_cases h2 : k' = p
      · subst h2
        simp [mapSet, mapGet, h1, if_neg (by omega : ¬ k = k')]
      · simp [mapSet, mapGet, h1, h2, ih]

theorem mapGet_appendChild (m : ChildMap) (k x p : Nat) :
    mapGet (appendChild m k x) p =
      if k = p then (mapGet m p).map (fun v => v ++ [x]) else mapGet m p := by
  induction m with
  | nil => by_cases h : k = p <;> simp [appendChild, mapGet, h]
  | cons hd tl ih =>
    obtain ⟨k', v'⟩ := hd
    by_cases h1 : k' = k
    · subst h1
      by_cases h2 : k' = p
      · subst h2
        simp [appendChild, mapGet]
      · simp [appendChild, mapGet, h2, if_neg (by omega : ¬ k' = p)]
    · by_cases h2 : k' = p
      · subst h2
        simp [appendChild, mapGet, h1, if_neg (by omega : ¬ k = k')]
      · simp [appendChild, mapGet, h1, h2, ih]

theorem mapGet_initChildMap_fold (l : List CatNode) :
    ∀ (m : ChildMap) (p : Nat),
      mapGet (l.foldl (fun m c => mapSet m c.id []) m) p =
        if l.any (fun c => c.id == p) then some [] else mapGet m p := by
  induction l with
  | nil => intro m p; simp
  | cons c l ih =>
    intro m p
    rw [List.foldl_cons, ih]
    rw [mapGet_mapSet]
    by_cases h1 : l.any (fun c => c.id == p)
    · simp [h1]
    · by_cases h2 : c.id = p <;> simp [h1, h2]

theorem treePass2_children (l : List CatNode) :
    ∀ (m : ChildMap) (roots : List Nat) (p : Nat) (v : List Nat),
      mapGet m p = some v →
      mapGet (treePass2 m roots l).1 p =
        some (v ++ (l.filter (fun c => c.parent == some p)).map (fun c => c.id)) := by
  induction l with
  | nil => intro m roots p v h; simpa [treePass2] using h
  | cons c l ih =>
    intro m roots p v h
    match hpar : c.parent with
    | none =>
      rw [show treePass2 m roots (c :: l) = treePass2 m (roots ++ [c.id]) l by
        simp [treePass2, hpar]]
      rw [ih m (roots ++ [c.id]) p v h]
      simp [List.filter_cons, hpar]
    | some q =>
      match hq : mapGet m q with
      | some w =>
        rw [show treePass2 m roots (c :: l) = treePass2 (appendChild m q c.id) roots l by
          simp [treePass2, hpar, hq]]
        by_cases hqp : q = p
        · subst hqp
          have h' : mapGet (appendChild m q c.id) q = some (v ++ [c.id]) := by
            rw [mapGet_appendChild, if_pos rfl, h]
            rfl
          rw [ih _ roots q (v ++ [c.id]) h']
          simp [List.filter_cons, hpar]
        · have h' : mapGet (appendChild m q c.id) p = some v := by
            rw [mapGet_appendChild, if_neg hqp]
            exact h
          rw [ih _ roots p v h']
          simp only [List.filter_cons, hpar]
          have : ((some q == some p) : Bool) = false := by
            simp [hqp]
          simp [this]
      | none =>
        rw [show treePass2 m roots (c :: l) = treePass2 m (roots ++ [c.id]) l by
          simp [treePass2, hpar, hq]]
        rw [ih m (roots ++ [c.id]) p v h]
        have hqp : q ≠ p := by
          intro he
          rw [he, h] at hq
          exact Option.noConfusion hq
        simp only [List.filter_cons, hpar]
        have : ((some q == some p) : Bool) = false := by
          simp [hqp]
        simp [this]

theorem treePass2_roots (cats : List CatNode) (l : List CatNode) :
    ∀ (m : ChildMap) (roots : List Nat),
      (∀ q, (mapGet m q).isSome = hasId cats q) →
      (treePass2 m roots l).2 = roots ++ (l.filter (isRootIn cats)).map (fun c => c.id) := by
  induction l with
  | nil => intro m roots _; simp [treePass2]
  | cons c l ih =>
    intro m roots hinv
    match hpar : c.parent with
    | none =>
      rw [show treePass2 m roots (c :: l) = treePass2 m (roots ++ [c.id]) l by
        simp [treePass2, hpar]]
      rw [ih m (roots ++ [c.id]) hinv]
      simp [List.filter_cons, isRootIn, hpar]
    | some q =>
      match hq : mapGet m q with
      | some w =>
        rw [show treePass2 m roots (c :: l) = treePass2 (appendChild m q c.id) roots l by
          simp [treePass2, hpar, hq]]
        have hinv' : ∀ r, (mapGet (appendChild m q c.id) r).isSome = hasId cats r := by
          intro r
          rw [mapGet_appendChild]
          by_cases hqr : q = r
          · subst hqr
            rw [if_pos rfl, hq, ← hinv q, hq]
            rfl
          · rw [if_neg hqr]
            exact hinv r
        rw [ih _ roots hinv']
        have hmem : hasId cats q = true := by
          rw [← hinv q, hq]
          rfl
        simp [List.filter_cons, isRootIn, hpar, hmem]
      | none =>
        rw [show treePass2 m roots (c :: l) = treePass2 m (roots ++ [c.id]) l by
          simp [treePass2, hpar, hq]]
        rw [ih m (roots ++ [c.id]) hinv]
        have hmem : hasId cats q = false := by
          rw [← hinv q, hq]
          rfl
        simp [List.filter_cons, isRootIn, hpar, hmem]

/-- C5: for every flat list, every id occurring in the list ends up mapped
to the ids of exactly those input nodes whose parent is that id, in input
order; and the root sequence is exactly the input-order list of nodes
whose parent is absent or dangling (a dangling parent reference makes the
node a root, not an error). In particular
`[{id 1, parent none}, {id 2, parent 1}, {id 3, parent 99}]` yields roots
`[1, 3]` with node 1's children `[2]`. -/
theorem buildCategoryTree_spec :
    (∀ (cats : List CatNode) (p : Nat), hasId cats p = true →
      mapGet (buildCategoryTree cats).1 p =
        some ((cats.filter (fun c => c.parent == some p)).map (fun c => c.id))) ∧
    (∀ cats : List CatNode,
      (buildCategoryTree cats).2 = (cats.filter (isRootIn cats)).map (fun c => c.id)) ∧
    buildCategoryTree [⟨1, none⟩, ⟨2, some 1⟩, ⟨3, some 99⟩] =
      ([(1, [2]), (2, []), (3, [])], [1, 3]) := by
  refine ⟨?_, ?_, by decide⟩
  · intro cats p hp
    have hinit : mapGet (initChildMap cats) p = some [] := by
      unfold initChildMap
      rw [mapGet_initChildMap_fold]
      unfold hasId at hp
      rw [if_pos hp]
    have := treePass2_children cats (initChildMap cats) [] p [] hinit
    simpa [buildCategoryTree] using this
  · intro cats
    have hinv : ∀ q, (mapGet (initChildMap cats) q).isSome = hasId cats q := by
      intro q
      unfold initChildMap hasId
      rw [mapGet_initChildMap_fold]
      by_cases h : (cats.any fun c => c.id == q) = true
      · rw [if_pos h, h]
        rfl
      · rw [if_neg h, eq_false_of_ne_true h]
        rfl
    have := treePass2_roots cats cats (initChildMap cats) [] hinv
    simpa [buildCategoryTree] using this

/-- Witness for C5 at the concrete three-node input: node 1's accumulated
children are exactly `[2]`. -/
theorem buildCategoryTree_spec_witness :
    mapGet (buildCategoryTree [⟨1, none⟩, ⟨2, some 1⟩, ⟨3, some 99⟩]).1 1 = some [2] :=
  (buildCategoryTree_spec.1 [⟨1, none⟩, ⟨2, some 1⟩, ⟨3, some 99⟩] 1 (by decide)).trans
    (by decide)

/-! ### Category deletion (`deleteCategory`) -/

/-- A category document, restricted to the fields `deleteCategory`
touches: id, optional parent reference, optional image path. -/
structure Category where
  id : Nat
  parent : Option Nat
  image : Option String
  deriving Repr, DecidableEq

/-- The state `deleteCategory` reads and writes: the category collection,
the category reference of each product, and the stored image files. -/
structure CatState where
  cats : List Category
  productCats : List Nat
  files : List String
  deriving Repr, DecidableEq

/-- Outcome of `deleteCategory`: 404 when missing, 400 validation errors
for the two guards, or success. -/
inductive DeleteCatResult where
  | notFound
  | hasChildrenError
  | hasProductsError
  | deleted
  deriving Repr, DecidableEq

/-- Model of `deleteCategory` (categoryController.js lines 278-315): find the
category; reject with 400 when it still has subcategories
(`countDocuments({parent: id}) > 0`); reject with 400 when products still
reference it (`countDocuments({category: id}) > 0`); otherwise unlink the
image file (if present) and delete the document. -/
def deleteCategory (st : CatState) (cid : Nat) : DeleteCatResult × CatState :=
  match st.cats.find? (fun c => c.id == cid) with
  | none => (DeleteCatResult.notFound, st)
  | some cat =>
    if 0 < (st.cats.filter (fun c => c.parent == some cid)).length then
      (DeleteCatResult.hasChildrenError, st)
    else if 0 < (st.productCats.filter (fun c => c == cid)).length then
      (DeleteCatResult.hasProductsError, st)
    else
      let files' :=
        match cat.image with
        | some img => st.files.filter (fun f => f ≠ img)
        | none => st.files
      (DeleteCatResult.deleted,
       { cats := st.cats.filter (fun c => c.id != cid),
         productCats := st.productCats,
         files := files' })

/-- C7: deleting a category that still has a child category or an
associated product fails with a validation error and leaves the whole
state — category list, product references and image files — unchanged;
conversely a successful delete implies the category had no children and
no products. -/
theorem deleteCategory_spec (st : CatState) (cid : Nat) :
    (∀ cat, st.cats.find? (fun c => c.id == cid) = some cat →
      0 < (st.cats.filter (fun c => c.parent == some cid)).length ∨
        0 < (st.productCats.filter (fun c => c == cid)).length →
      ((deleteCategory st cid).1 = DeleteCatResult.hasChildrenError ∨
        (deleteCategory st cid).1 = DeleteCatResult.hasProductsError) ∧
      (deleteCategory st cid).2 = st) ∧
    ((deleteCategory st cid).1 = DeleteCatResult.deleted →
      (st.cats.filter (fun c => c.parent == some cid)).length = 0 ∧
      (st.productCats.filter (fun c => c == cid)).length = 0) := by
  constructor
  · intro cat hfind hor
    simp only [deleteCategory, hfind]
    by_cases h1 : 0 < (st.cats.filter (fun c => c.parent == some cid)).length
    · rw [if_pos h1]
      exact ⟨Or.inl rfl, rfl⟩
    · have h2 : 0 < (st.productCats.filter (fun c => c == cid)).length := by
        rcases hor with h | h
        · exact absurd h h1
        · exact h
      rw [if_neg h1, if_pos h2]
      exact ⟨Or.inr rfl, rfl⟩
  · intro hdel
    match hfind : st.cats.find? (fun c => c.id == cid) with
    | none =>
      simp only [deleteCategory, hfind] at hdel
      exact absurd hdel (by simp)
    | some cat =>
      simp only [deleteCategory, hfind] at hdel
      by_cases h1 : 0 < (st.cats.filter (fun c => c.parent == some cid)).length
      · rw [if_pos h1] at hdel
        exact absurd hdel (by simp)
      · rw [if_neg h1] at hdel
        by_cases h2 : 0 < (st.productCats.filter (fun c => c == cid)).length
        · rw [if_pos h2] at hdel
          exact absurd hdel (by simp)
        · exact ⟨by omega, by omega⟩

/-- Witness for C7 at a concrete state: category 1 has a child (category
2), so deletion fails and the state is untouched. -/
theorem deleteCategory_spec_witness :
    ((deleteCategory ⟨[⟨1, none, none⟩, ⟨2, some 1, none⟩], [], []⟩ 1).1 =
        DeleteCatResult.hasChildrenError ∨
      (deleteCategory ⟨[⟨1, none, none⟩, ⟨2, some 1, none⟩], [], []⟩ 1).1 =
        DeleteCatResult.hasProductsError) ∧
    (deleteCategory ⟨[⟨1, none, none⟩, ⟨2, some 1, none⟩], [], []⟩ 1).2 =
      ⟨[⟨1, none, none⟩, ⟨2, some 1, none⟩], [], []⟩ :=
  (deleteCategory_spec ⟨[⟨1, none, none⟩, ⟨2, some 1, none⟩], [], []⟩ 1).1
    ⟨1, none, none⟩ (by decide) (Or.inl (by decide))

/-! ### Signup (auth controller `signup`, email-or-phone variant) -/

/-- JS truthiness of an optional string field: `undefined`/`null` and the
empty string are falsy. -/
def strTruthy : Option String → Bool
  | none => false
  | some s => !s.data.isEmpty

/-- A whitespace character as the `\s` regex class (the cases relevant to
these inputs). -/
def isSpaceChar (c : Char) : Bool :=
  c == ' ' || c == '\t' || c == '\n' || c == '\r'

/-- JavaScript `String.prototype.trim` (over the whitespace class above):
drop leading and trailing whitespace. -/
def jsTrim (s : String) : String :=
  ⟨((s.data.dropWhile isSpaceChar).reverse.dropWhile isSpaceChar).reverse⟩

/-- ASCII case-lowering of one character (the range these inputs use). -/
def asciiToLower (c : Char) : Char :=
  if 'A' ≤ c ∧ c ≤ 'Z' then Char.ofNat (c.toNat + 32) else c

/-- JavaScript `String.prototype.toLowerCase` (ASCII range). -/
def jsToLower (s : String) : String :=
  ⟨s.data.map asciiToLower⟩

/-- A run matching `[^\s@]+`: nonempty, no whitespace, no `@`. -/
def emailSeg (cs : List Char) : Bool :=
  !cs.isEmpty && cs.all (fun c => !isSpaceChar c && c != '@')

/-- A suffix matching `[^\s@]+\.[^\s@]+`: splittable at some dot with both
sides nonempty segments. -/
def emailTail (cs : List Char) : Bool :=
  (List.range cs.length).any (fun i =>
    cs.get? i == some '.' && emailSeg (cs.take i) && emailSeg (cs.drop (i + 1)))

/-- The controller's `isValidEmail`: the whole string matches
`^[^\s@]+@[^\s@]+\.[^\s@]+$`. -/
def isValidEmail (s : String) : Bool :=
  let cs := s.toList
  (List.range cs.length).any (fun i =>
    cs.get? i == some '@' && emailSeg (cs.take i) && emailTail (cs.drop (i + 1)))

/-- Characters the controller's `isValidPhone` strips before testing:
the class `[\s\-\(\)]`. -/
def phoneStripChar (c : Char) : Bool :=
  isSpaceChar c || c == '-' || c == '(' || c == ')'

/-- The controller's `isValidPhone`: after stripping, 10-15 digits. -/
def isValidPhone (s : String) : Bool :=
  let t := s.toList.filter (fun c => !phoneStripChar c)
  decide (10 ≤ t.length) && decide (t.length ≤ 15) && t.all (fun c => c.isDigit)

/-- The controller's `isValidPassword`: at least 6 characters (the
truthiness conjunct is guaranteed by the earlier required-fields check). -/
def isValidPassword (p : String) : Bool :=
  decide (6 ≤ p.data.length)

/-- The role-sanitising line of `signup`:
`role === 'admin' ? 'customer' : (role || 'customer')`. -/
def signupRole (role : Option String) : String :=
  match role with
  | none => "customer"
  | some r => if r = "admin" then "customer" else if r = "" then "customer" else r

/-- A stored user document (fields the signup path writes/queries). -/
structure UserRec where
  name : String
  email : String
  phone : Option String
  role : String
  deriving Repr, DecidableEq

/-- Model of `User.create` as the schema validates the fields signup supplies:
`email` is required (nonempty) and `role` must be one of the enum values
`customer`/`admin`; a violation makes `create` throw, landing in the
controller's catch branch. (The schema's email-format regex is not
modelled; it affects neither claim proved below.) -/
def createUser (name email : String) (phone : Option String) (role : String) :
    Except String UserRec :=
  if email.data.isEmpty then Except.error "email required"
  else if role == "customer" || role == "admin" then Except.ok ⟨name, email, phone, role⟩
  else Except.error "role enum"

/-- The duplicate-user query of `signup`: `$or` of
`{email: <normalised email or null>}` and `{phone: <trimmed phone or null>}`
(the `.filter(Boolean)` keeps both branches — objects are always truthy).
A `null` key matches documents whose field is null/absent; stored users
always have an email (schema-required), so a null email key matches
nothing, while a null phone key matches users without a phone. -/
def userMatches (ek pk : Option String) (u : UserRec) : Bool :=
  (match ek with
   | some e => u.email == e
   | none => false) ||
  (match pk with
   | some ph => u.phone == some ph
   | none => u.phone == none)

/-- Key `email ? email.toLowerCase().trim() : null` — the normalised email
key (`null` when the field is falsy). -/
def emailKey (e : Option String) : Option String :=
  if strTruthy e then some (jsTrim (jsToLower (e.getD ""))) else none

/-- Key `phone ? phone.trim() : null` — the normalised phone key. -/
def phoneKey (p : Option String) : Option String :=
  if strTruthy p then some (jsTrim (p.getD "")) else none

/-- The JSON envelope of the signup response (status, `success`, message). -/
structure SignupResp where
  status : Nat
  success : Bool
  message : String
  deriving Repr, DecidableEq

/-- A signup request body. -/
structure SignupReq where
  name : Option String
  email : Option String
  password : Option String
  phone : Option String
  role : Option String
  deriving Repr, DecidableEq

/-- Result of a signup call: the response, the user collection afterwards,
and the created user, if any. -/
structure SignupOutcome where
  resp : SignupResp
  db : List UserRec
  created : Option UserRec
  deriving Repr, DecidableEq

/-- Model of `signup` (auth controller): the validation gauntlet in source order,
the duplicate check, role sanitising, then `User.create` with
`email.toLowerCase().trim()` — which throws a `TypeError` when `email` is
absent, so that path falls into the catch branch (`400`,
`Failed to register user`) without creating a user. -/
def signup (db : List UserRec) (r : SignupReq) : SignupOutcome :=
  if !strTruthy r.name || !strTruthy r.password then
    ⟨⟨400, false, "Name and password are required"⟩, db, none⟩
  else if !strTruthy r.email && !strTruthy r.phone then
    ⟨⟨400, false, "Either email or phone number must be provided"⟩, db, none⟩
  else if strTruthy r.email && !isValidEmail (r.email.getD "") then
    ⟨⟨400, false, "Please provide a valid email address"⟩, db, none⟩
  else if strTruthy r.phone && !isValidPhone (r.phone.getD "") then
    ⟨⟨400, false, "Please provide a valid phone number"⟩, db, none⟩
  else if (jsTrim (r.name.getD "")).data.length < 2 then
    ⟨⟨400, false, "Name must be at least 2 characters long"⟩, db, none⟩
  else if 100 < (jsTrim (r.name.getD "")).data.length then
    ⟨⟨400, false, "Name cannot exceed 100 characters"⟩, db, none⟩
  else if !isValidPassword (r.password.getD "") then
    ⟨⟨400, false, "Password must be at least 6 characters long"⟩, db, none⟩
  else if db.any (userMatches (emailKey r.email) (phoneKey r.phone)) then
    ⟨⟨400, false, "User with the provided email or phone number already exists"⟩, db, none⟩
  else
    match r.email with
    | none =>
      ⟨⟨400, false, "Failed to register user"⟩, db, none⟩
    | some e =>
      match createUser (jsTrim (r.name.getD "")) (jsTrim (jsToLower e))
          (phoneKey r.phone) (signupRole r.role) with
      | Except.ok u => ⟨⟨201, true, "User registered successfully"⟩, db ++ [u], some u⟩
      | Except.error _ => ⟨⟨400, false, "Failed to register user"⟩, db, none⟩

theorem signupRole_ne_admin (r : Option String) : signupRole r ≠ "admin" := by
  match r with
  | none => simp [signupRole]
  | some s =>
    simp only [signupRole]
    by_cases h1 : s = "admin"
    · simp [h1]
    · by_cases h2 : s = ""
      · simp [h1, h2]
      · simp [h1, h2]

/-- C9: the signup role-sanitising replaces a requested `admin` role by
`customer`, never yields `admin` for any requested role, and any user
record actually produced by the signup operation has role `customer`
(the schema enum admits only `customer`/`admin`, and `admin` is ruled
out). -/
theorem signup_role_spec :
    signupRole (some "admin") = "customer" ∧
    (∀ r : Option String, signupRole r ≠ "admin") ∧
    (∀ (db : List UserRec) (req : SignupReq) (u : UserRec),
      (signup db req).created = some u → u.role = "customer") := by
  refine ⟨rfl, signupRole_ne_admin, ?_⟩
  intro db req u hu
  unfold signup at hu
  split_ifs at hu with h1 h2 h3 h4 h5 h6 h7 h8
  match hemail : req.email with
  | none =>
    rw [hemail] at hu
    simp at hu
  | some e =>
    rw [hemail] at hu
    dsimp only at hu
    match hcr : createUser (jsTrim (req.name.getD "")) (jsTrim (jsToLower e))
        (phoneKey req.phone) (signupRole req.role) with
    | Except.error msg =>
      rw [hcr] at hu
      simp at hu
    | Except.ok u' =>
      rw [hcr] at hu
      obtain rfl : u' = u := by simpa using hu
      unfold createUser at hcr
      split_ifs at hcr with he hrole
      obtain rfl : (⟨jsTrim (req.name.getD ""), jsTrim (jsToLower e), phoneKey req.phone,
          signupRole req.role⟩ : UserRec) = u' := by
        simpa using hcr
      have hor : signupRole req.role = "customer" ∨ signupRole req.role = "admin" := by
        simpa using hrole
      rcases hor with h | h
      · simpa using h
      · exact absurd h (signupRole_ne_admin req.role)

/-- Witness for C9 at a concrete successful signup: requested role `admin`
is stored as `customer`. -/
theorem signup_role_spec_witness :
    (⟨"Al", "a@b.c", none, "customer"⟩ : UserRec).role = "customer" :=
  signup_role_spec.2.2 [] ⟨some "Al", some "a@b.c", some "secret", none, some "admin"⟩
    ⟨"Al", "a@b.c", none, "customer"⟩ (by decide)

/-- C10: a signup request that supplies a phone number but no email can
never succeed: every validation failure returns a 400 with no user
created, and a request passing all field validation reaches
`User.create`, where `email.toLowerCase()` dereferences the absent email
and throws, landing in the catch branch — 400, `Failed to register user`,
no user created. The concrete conjunct shows a fully valid phone-only
request ending in the catch branch message (so it passed the field
validation). -/
theorem signup_phone_only_spec :
    (∀ (db : List UserRec) (r : SignupReq) (ph : String),
      r.email = none → r.phone = some ph →
      (signup db r).resp.success = false ∧ (signup db r).db = db ∧
        (signup db r).created = none) ∧
    signup [] ⟨some "Alice", none, some "secret1", some "0123456789", none⟩ =
      ⟨⟨400, false, "Failed to register user"⟩, [], none⟩ := by
  refine ⟨?_, by decide⟩
  intro db r ph he hp
  unfold signup
  rw [he]
  split_ifs <;> simp_all

/-- Witness for C10 at the concrete phone-only request: the response
fails, the collection is unchanged, and no user is created. -/
theorem signup_phone_only_spec_witness :
    (signup [] ⟨some "Alice", none, some "secret1", some "0123456789", none⟩).resp.success =
        false ∧
    (signup [] ⟨some "Alice", none, some "secret1", some "0123456789", none⟩).db = [] ∧
    (signup [] ⟨some "Alice", none, some "secret1", some "0123456789", none⟩).created = none :=
  signup_phone_only_spec.1 [] ⟨some "Alice", none, some "secret1", some "0123456789", none⟩
    "0123456789" rfl rfl
